import Mathlib

/-!
Verification of the identity-matching core of the true-presence face
attendance platform against its design specification.

The embedding covers:
* the Embedding Store SQL functions `calculate_face_similarity` and
  `find_similar_faces` (database initialization script);
* the Matcher, Task Orchestrator and Attendance Ledger, whose server-side
  code is not part of this repository snapshot and is therefore modelled
  from the specification;
* the admin-dashboard enrollment guard (`FaceRecognition.tsx`) and the
  notifications reducer (`notificationsSlice.ts`).
-/

namespace TruePresence

/-!
## Embedding Store: similarity metric

`calculate_face_similarity(e1, e2) = 1 - (e1 <=> e2)` where `<=>` is the
pgvector cosine-distance operator.  Vectors are modelled as real-valued
functions on `Fin n` (the SQL schema fixes n = 512; the definitions are
dimension-generic).
-/

/-- Dot product of two embedding vectors. -/
noncomputable def dotProduct {n : ℕ} (a b : Fin n → ℝ) : ℝ :=
  ∑ i, a i * b i

/-- Euclidean norm of an embedding vector. -/
noncomputable def vecNorm {n : ℕ} (a : Fin n → ℝ) : ℝ :=
  Real.sqrt (dotProduct a a)

/-- Cosine distance, the pgvector `<=>` operator: one minus the cosine of
the angle between the two vectors. -/
noncomputable def cosineDistance {n : ℕ} (a b : Fin n → ℝ) : ℝ :=
  1 - dotProduct a b / (vecNorm a * vecNorm b)

/-- SQL function `calculate_face_similarity`: returns
`1 - (embedding1 <=> embedding2)`. -/
noncomputable def calculate_face_similarity {n : ℕ} (a b : Fin n → ℝ) : ℝ :=
  1 - cosineDistance a b

lemma dotProduct_self_nonneg {n : ℕ} (a : Fin n → ℝ) : 0 ≤ dotProduct a a :=
  Finset.sum_nonneg fun i _ => mul_self_nonneg (a i)

lemma dotProduct_self_pos {n : ℕ} (a : Fin n → ℝ) (ha : a ≠ 0) :
    0 < dotProduct a a := by
  rcases (dotProduct_self_nonneg a).lt_or_eq with h | h
  · exact h
  · exfalso
    apply ha
    funext i
    have hz := (Finset.sum_eq_zero_iff_of_nonneg
      (fun j _ => mul_self_nonneg (a j))).mp h.symm i (Finset.mem_univ i)
    have := mul_self_eq_zero.mp hz
    simpa using this

lemma vecNorm_pos {n : ℕ} (a : Fin n → ℝ) (ha : a ≠ 0) : 0 < vecNorm a :=
  Real.sqrt_pos.mpr (dotProduct_self_pos a ha)

lemma dotProduct_le_norm_mul_norm {n : ℕ} (a b : Fin n → ℝ) :
    dotProduct a b ≤ vecNorm a * vecNorm b := by
  have h := Real.sum_mul_le_sqrt_mul_sqrt (Finset.univ : Finset (Fin n)) a b
  unfold dotProduct vecNorm
  calc ∑ i, a i * b i
      ≤ Real.sqrt (∑ i, a i ^ 2) * Real.sqrt (∑ i, b i ^ 2) := h
    _ = Real.sqrt (∑ i, a i * a i) * Real.sqrt (∑ i, b i * b i) := by
        simp [sq]

lemma neg_norm_mul_norm_le_dotProduct {n : ℕ} (a b : Fin n → ℝ) :
    -(vecNorm a * vecNorm b) ≤ dotProduct a b := by
  have h := dotProduct_le_norm_mul_norm (fun i => -(a i)) b
  have hd : dotProduct (fun i => -(a i)) b = -dotProduct a b := by
    unfold dotProduct
    rw [← Finset.sum_neg_distrib]
    refine Finset.sum_congr rfl fun i _ => by ring
  have hn : vecNorm (fun i => -(a i)) = vecNorm a := by
    unfold vecNorm dotProduct
    congr 1
    refine Finset.sum_congr rfl fun i _ => by ring
  rw [hd, hn] at h
  linarith

lemma similarity_eq_div {n : ℕ} (a b : Fin n → ℝ) :
    calculate_face_similarity a b = dotProduct a b / (vecNorm a * vecNorm b) := by
  unfold calculate_face_similarity cosineDistance
  ring

/-- Claim C5: for every pair of (nonzero) embedding vectors, the similarity
the store computes equals cosine similarity, i.e. one minus the cosine
distance, and the value lies in the range from -1 to 1. -/
theorem claim5_similarity_is_bounded_cosine {n : ℕ} (a b : Fin n → ℝ)
    (ha : a ≠ 0) (hb : b ≠ 0) :
    calculate_face_similarity a b = 1 - cosineDistance a b ∧
    -1 ≤ calculate_face_similarity a b ∧ calculate_face_similarity a b ≤ 1 := by
  have hna := vecNorm_pos a ha
  have hnb := vecNorm_pos b hb
  have hprod : 0 < vecNorm a * vecNorm b := mul_pos hna hnb
  refine ⟨rfl, ?_, ?_⟩
  · rw [similarity_eq_div]
    rw [le_div_iff₀ hprod]
    have := neg_norm_mul_norm_le_dotProduct a b
    linarith
  · rw [similarity_eq_div]
    rw [div_le_one hprod]
    exact dotProduct_le_norm_mul_norm a b

/-- Concrete instance of claim C5 on the one-dimensional vector (1). -/
theorem claim5_witness :
    ((fun _ => (1 : ℝ)) : Fin 1 → ℝ) ≠ 0 ∧
    (calculate_face_similarity (fun (_ : Fin 1) => (1 : ℝ)) (fun _ => (1 : ℝ)) =
        1 - cosineDistance (fun (_ : Fin 1) => (1 : ℝ)) (fun _ => (1 : ℝ)) ∧
      -1 ≤ calculate_face_similarity
          (fun (_ : Fin 1) => (1 : ℝ)) (fun _ => (1 : ℝ)) ∧
      calculate_face_similarity
          (fun (_ : Fin 1) => (1 : ℝ)) (fun _ => (1 : ℝ)) ≤ 1) := by
  have h1 : ((fun _ => (1 : ℝ)) : Fin 1 → ℝ) ≠ 0 := by
    intro h
    exact one_ne_zero (congrFun h 0)
  exact ⟨h1, claim5_similarity_is_bounded_cosine _ _ h1 h1⟩

/-!
## Embedding Store: find_similar_faces

SQL function `find_similar_faces(query_embedding, similarity_threshold,
max_results)`: selects `(user_id, similarity, embedding_id)` from the
`face_embeddings` table where the similarity to the query is at least the
threshold, ordered by similarity descending, limited to `max_results`.

The similarity scores the database computes are FLOATs; the pipeline is
embedded generically over the similarity function `sim` (whose real-valued
cosine instance is `calculate_face_similarity` above) with rational scores
so that the pipeline stays executable.
-/

/-- Row of the `face_embeddings` table. -/
structure FaceEmbeddingRow (α : Type) where
  id : Nat
  user_id : Nat
  embedding : α
deriving DecidableEq

/-- Result row of `find_similar_faces`: `(user_id, similarity, embedding_id)`.
The score type `β` stands for the SQL FLOAT similarity scores; theorems are
generic over any linearly ordered score type. -/
structure SimilarFace (β : Type) where
  user_id : Nat
  similarity : β
  embedding_id : Nat
deriving DecidableEq

/-- Ordering used by `ORDER BY similarity DESC`. -/
def simDesc {β : Type} [LinearOrder β] (c d : SimilarFace β) : Prop :=
  d.similarity ≤ c.similarity

instance {β : Type} [LinearOrder β] : DecidableRel (simDesc (β := β)) := fun c d =>
  inferInstanceAs (Decidable (d.similarity ≤ c.similarity))

instance {β : Type} [LinearOrder β] : IsTotal (SimilarFace β) simDesc :=
  ⟨fun a b => le_total b.similarity a.similarity⟩

instance {β : Type} [LinearOrder β] : IsTrans (SimilarFace β) simDesc :=
  ⟨fun _ _ _ h1 h2 => le_trans h2 h1⟩

/-- Candidate row produced for a table row by `find_similar_faces`. -/
def candidateOf {α β : Type} (sim : α → α → β) (query_embedding : α)
    (fe : FaceEmbeddingRow α) : SimilarFace β :=
  { user_id := fe.user_id
    similarity := sim query_embedding fe.embedding
    embedding_id := fe.id }

/-- SQL function `find_similar_faces`: compute the similarity of every
stored embedding to the query, keep those at or above the threshold, order
by similarity descending, and return at most `max_results` rows. -/
def find_similar_faces {α β : Type} [LinearOrder β] (sim : α → α → β)
    (query_embedding : α) (similarity_threshold : β) (max_results : Nat)
    (table : List (FaceEmbeddingRow α)) : List (SimilarFace β) :=
  (List.insertionSort simDesc
    ((table.map (candidateOf sim query_embedding)).filter
      fun c => similarity_threshold ≤ c.similarity)).take max_results

/-- Claim C6: the query returns at most `max_results` candidates, sorted by
descending similarity, and it contains the nearest candidates: any table
row strictly more similar to the query than some returned candidate is
itself returned. -/
theorem claim6_query_sorted_topk {α β : Type} [LinearOrder β] (sim : α → α → β)
    (query_embedding : α) (similarity_threshold : β) (max_results : Nat)
    (table : List (FaceEmbeddingRow α)) (c : SimilarFace β)
    (fe : FaceEmbeddingRow α)
    (hc : c ∈ find_similar_faces sim query_embedding similarity_threshold
      max_results table)
    (hfe : fe ∈ table)
    (hlt : c.similarity < sim query_embedding fe.embedding) :
    (find_similar_faces sim query_embedding similarity_threshold
        max_results table).length ≤ max_results ∧
    List.Sorted simDesc (find_similar_faces sim query_embedding
      similarity_threshold max_results table) ∧
    candidateOf sim query_embedding fe ∈
      find_similar_faces sim query_embedding similarity_threshold
        max_results table := by
  classical
  set filtered :=
    (table.map (candidateOf sim query_embedding)).filter
      (fun c => similarity_threshold ≤ c.similarity) with hfiltered
  set L := List.insertionSort simDesc filtered with hL
  have hsortedL : List.Sorted simDesc L := List.sorted_insertionSort simDesc filtered
  have hres : find_similar_faces sim query_embedding similarity_threshold
      max_results table = L.take max_results := rfl
  refine ⟨?_, ?_, ?_⟩
  · rw [hres]
    exact List.length_take_le max_results L
  · rw [hres]
    exact List.Pairwise.sublist (List.take_sublist max_results L) hsortedL
  · -- the candidate built from fe is itself returned
    rw [hres]
    rw [hres] at hc
    have hcL : c ∈ L := List.mem_of_mem_take hc
    have hcF : c ∈ filtered := ((List.perm_insertionSort simDesc filtered).mem_iff).mp hcL
    have hcThr : similarity_threshold ≤ c.similarity := by
      have := List.of_mem_filter hcF
      simpa using this
    have hcandF : candidateOf sim query_embedding fe ∈ filtered := by
      refine List.mem_filter.mpr ⟨List.mem_map.mpr ⟨fe, hfe, rfl⟩, ?_⟩
      have : similarity_threshold ≤ (candidateOf sim query_embedding fe).similarity := by
        unfold candidateOf
        dsimp
        exact le_of_lt (lt_of_le_of_lt hcThr hlt)
      simpa using this
    have hcandL : candidateOf sim query_embedding fe ∈ L :=
      ((List.perm_insertionSort simDesc filtered).mem_iff).mpr hcandF
    have hsplit : L.take max_results ++ L.drop max_results = L :=
      List.take_append_drop max_results L
    have hpair : List.Pairwise simDesc (L.take max_results ++ L.drop max_results) := by
      rw [hsplit]
      exact hsortedL
    rcases (List.mem_append).mp (by rw [hsplit]; exact hcandL) with hIn | hOut
    · exact hIn
    · exfalso
      have hrel : simDesc c (candidateOf sim query_embedding fe) :=
        ((List.pairwise_append).mp hpair).2.2 c hc _ hOut
      unfold simDesc candidateOf at hrel
      dsimp at hrel
      exact absurd hrel (not_le.mpr hlt)

/-- Concrete instance of claim C6 on a three-row table with k = 2
(similarity scores scaled by 100, so the default threshold 0.6 is 60). -/
theorem claim6_witness :
    (⟨20, 70, 2⟩ : SimilarFace ℤ) ∈
      find_similar_faces (fun a b => a * b) (1 : ℤ) 60 2
        [⟨1, 10, 90⟩, ⟨2, 20, 70⟩, ⟨3, 30, 50⟩] ∧
    (⟨1, 10, 90⟩ : FaceEmbeddingRow ℤ) ∈
      ([⟨1, 10, 90⟩, ⟨2, 20, 70⟩, ⟨3, 30, 50⟩] : List (FaceEmbeddingRow ℤ)) ∧
    ((⟨20, 70, 2⟩ : SimilarFace ℤ).similarity < (1 : ℤ) * 90) ∧
    ((find_similar_faces (fun a b => a * b) (1 : ℤ) 60 2
        [⟨1, 10, 90⟩, ⟨2, 20, 70⟩, ⟨3, 30, 50⟩]).length ≤ 2 ∧
      List.Sorted simDesc (find_similar_faces (fun a b => a * b) (1 : ℤ) 60 2
        [⟨1, 10, 90⟩, ⟨2, 20, 70⟩, ⟨3, 30, 50⟩]) ∧
      candidateOf (fun a b => a * b) (1 : ℤ) ⟨1, 10, 90⟩ ∈
        find_similar_faces (fun a b => a * b) (1 : ℤ) 60 2
          [⟨1, 10, 90⟩, ⟨2, 20, 70⟩, ⟨3, 30, 50⟩]) :=
  ⟨by decide, by decide, by decide,
    claim6_query_sorted_topk (fun a b => a * b) (1 : ℤ) 60 2
      [⟨1, 10, 90⟩, ⟨2, 20, 70⟩, ⟨3, 30, 50⟩] ⟨20, 70, 2⟩ ⟨1, 10, 90⟩
      (by decide) (by decide) (by decide)⟩

/-!
## Matcher
-/

/-- Reasons a verification query can be rejected by the Matcher. -/
inductive RejectReason
  | BelowThreshold
  | Ambiguous
deriving DecidableEq

/-- Result of the Matcher's match operation. -/
inductive MatchResult (β : Type)
  | Accepted (identity : Nat) (similarity : β)
  | Rejected (reason : RejectReason)
deriving DecidableEq

/-- Modelled from the spec: the Matcher's `match` operation; its server-side
code is missing from the repository snapshot (only the candidate query
`find_similar_faces` is present).  Per the specification: retrieve the
top-2 candidates via the Embedding Store query with k = 2; if there are no
candidates or the top similarity is below the acceptance threshold
(default 0.6), reject as BelowThreshold; if the top similarity is at or
above the threshold but the margin between the top-1 and top-2 candidate
similarities is below the separation threshold (default 0.03) and the two
candidates belong to different identities, reject as Ambiguous; otherwise
accept the top-1 identity. -/
def matchFace {α β : Type} [LinearOrder β] [Sub β] (sim : α → α → β)
    (query_embedding : α) (threshold separation : β)
    (table : List (FaceEmbeddingRow α)) : MatchResult β :=
  match find_similar_faces sim query_embedding threshold 2 table with
  | [] => .Rejected .BelowThreshold
  | [c] =>
    if c.similarity < threshold then .Rejected .BelowThreshold
    else .Accepted c.user_id c.similarity
  | c1 :: c2 :: _ =>
    if c1.similarity < threshold then .Rejected .BelowThreshold
    else if c1.similarity - c2.similarity < separation ∧ c1.user_id ≠ c2.user_id then
      .Rejected .Ambiguous
    else .Accepted c1.user_id c1.similarity

/-- Claim C1: whenever the top-2 candidates belong to two different
identities, the top-1 similarity is at or above the acceptance threshold,
and the margin between top-1 and top-2 similarities is below the separation
threshold, the match is rejected as Ambiguous and is never Accepted. -/
theorem claim1_ambiguous_never_accepted {α β : Type} [LinearOrder β] [Sub β]
    (sim : α → α → β) (query_embedding : α) (threshold separation : β)
    (table : List (FaceEmbeddingRow α)) (c1 c2 : SimilarFace β)
    (rest : List (SimilarFace β))
    (hq : find_similar_faces sim query_embedding threshold 2 table =
      c1 :: c2 :: rest)
    (hthr : threshold ≤ c1.similarity)
    (hmargin : c1.similarity - c2.similarity < separation)
    (hid : c1.user_id ≠ c2.user_id) :
    matchFace sim query_embedding threshold separation table =
      .Rejected .Ambiguous ∧
    ∀ idn s, matchFace sim query_embedding threshold separation table ≠
      .Accepted idn s := by
  have hm : matchFace sim query_embedding threshold separation table =
      .Rejected .Ambiguous := by
    unfold matchFace
    rw [hq]
    dsimp only
    rw [if_neg (not_lt.mpr hthr), if_pos ⟨hmargin, hid⟩]
  exact ⟨hm, fun idn s h => by rw [hm] at h; exact MatchResult.noConfusion h⟩

/-- Concrete instance of claim C1: two enrolled identities with similarity
scores 63 and 62 (scaled by 100: 0.63 and 0.62) against threshold 60 and
separation 3 give an Ambiguous rejection. -/
theorem claim1_witness :
    find_similar_faces (fun a b => a * b) (1 : ℤ) 60 2
        [⟨1, 10, 63⟩, ⟨2, 20, 62⟩] = [⟨10, 63, 1⟩, ⟨20, 62, 2⟩] ∧
    (60 : ℤ) ≤ 63 ∧ (63 : ℤ) - 62 < 3 ∧ (10 : Nat) ≠ 20 ∧
    matchFace (fun a b => a * b) (1 : ℤ) 60 3 [⟨1, 10, 63⟩, ⟨2, 20, 62⟩] =
      .Rejected .Ambiguous :=
  ⟨by decide, by decide, by decide, by decide,
    (claim1_ambiguous_never_accepted (fun a b => a * b) (1 : ℤ) 60 3
      [⟨1, 10, 63⟩, ⟨2, 20, 62⟩] ⟨10, 63, 1⟩ ⟨20, 62, 2⟩ []
      (by decide) (by decide) (by decide) (by decide)).1⟩

/-!
## Attendance Ledger

The `attendance_logs` and `attendance_summaries` tables come from the
database initialization script; the ledger's record operation itself is
server-side code missing from the repository snapshot and is modelled from
the specification.  Timestamps are epoch seconds; confidence scores are
scaled to integers (FLOAT in the schema).
-/

/-- Row of the `attendance_logs` table (fields the ledger rules use). -/
structure AttendanceRecord where
  user_id : Nat
  timestamp : Int
  attendance_type : String
  camera_id : String
  confidence : Int
deriving DecidableEq

/-- Row of the `attendance_summaries` table; the schema declares
`UNIQUE(user_id, date)`. -/
structure AttendanceSummary where
  user_id : Nat
  date : Int
  check_in_time : Option Int
  check_out_time : Option Int
  is_present : Bool
deriving DecidableEq

/-- State of the Attendance Ledger: the append-only log (newest first) and
the derived summaries. -/
structure LedgerState where
  logs : List AttendanceRecord
  summaries : List AttendanceSummary
deriving DecidableEq

/-- Empty ledger. -/
def emptyLedger : LedgerState := ⟨[], []⟩

/-- Day index of an epoch-seconds timestamp (date partitioning). -/
def dateOf (ts : Int) : Int := ts / 86400

/-- Most recent attendance record for an identity with the given event
type. -/
def mostRecent (logs : List AttendanceRecord) (uid : Nat) (ty : String) :
    Option AttendanceRecord :=
  (logs.filter fun r => r.user_id == uid && r.attendance_type == ty).foldl
    (fun acc r =>
      match acc with
      | none => some r
      | some m => if m.timestamp < r.timestamp then some r else some m)
    none

/-- Modelled from the spec: refresh of a summary row when a record for its
(identity, date) is appended: set or refresh the first-check-in /
last-check-out fields and the presence flag. -/
def refreshSummary (s : AttendanceSummary) (ts : Int) (ty : String) :
    AttendanceSummary :=
  if ty == "check_in" then
    { s with
      check_in_time := some (match s.check_in_time with
        | none => ts
        | some t => min t ts)
      is_present := true }
  else
    { s with
      check_out_time := some (match s.check_out_time with
        | none => ts
        | some t => max t ts)
      is_present := true }

/-- Modelled from the spec: update or create the AttendanceSummary row for
(identity, date) when a new AttendanceRecord is appended. -/
def updateSummary (summaries : List AttendanceSummary) (uid : Nat) (d : Int)
    (ts : Int) (ty : String) : List AttendanceSummary :=
  if summaries.any fun s => s.user_id == uid && s.date == d then
    summaries.map fun s =>
      if s.user_id == uid && s.date == d then refreshSummary s ts ty else s
  else
    { user_id := uid
      date := d
      check_in_time := if ty == "check_in" then some ts else none
      check_out_time := if ty == "check_out" then some ts else none
      is_present := true } :: summaries

/-- Result of the ledger's record operation. -/
inductive RecordResult
  | Recorded (r : AttendanceRecord)
  | Deduplicated
deriving DecidableEq

/-- Append a new AttendanceRecord and update the summary row. -/
def appendRecord (st : LedgerState) (uid : Nat) (ts : Int) (cam : String)
    (conf : Int) (ty : String) : RecordResult × LedgerState :=
  (.Recorded ⟨uid, ts, ty, cam, conf⟩,
    ⟨⟨uid, ts, ty, cam, conf⟩ :: st.logs,
      updateSummary st.summaries uid (dateOf ts) ts ty⟩)

/-- Modelled from the spec: the Attendance Ledger record operation; its
server-side code is missing from the repository snapshot (only the table
schemas are present).  Per the specification: look up the most recent
AttendanceRecord for the identity with the same event type; if one exists
and the new timestamp minus its timestamp is below the cooldown window,
reject with Deduplicated and write nothing; otherwise append a new
AttendanceRecord and update or create the AttendanceSummary row for the
(identity, date). -/
def record (st : LedgerState) (uid : Nat) (ts : Int) (cam : String)
    (conf : Int) (ty : String) (cooldown : Int) :
    RecordResult × LedgerState :=
  match mostRecent st.logs uid ty with
  | some last =>
    if ts - last.timestamp < cooldown then (.Deduplicated, st)
    else appendRecord st uid ts cam conf ty
  | none => appendRecord st uid ts cam conf ty

/-- Claim C2: if a most-recent record of the same type exists within the
cooldown window, record returns Deduplicated and leaves the ledger state
(in particular the log) unchanged; if the gap is at least the cooldown, or
no previous record exists, a new AttendanceRecord is appended. -/
theorem claim2_dedup_within_cooldown (st : LedgerState) (uid : Nat)
    (ts : Int) (cam : String) (conf : Int) (ty : String) (cooldown : Int) :
    (∀ last, mostRecent st.logs uid ty = some last →
      ts - last.timestamp < cooldown →
      record st uid ts cam conf ty cooldown = (.Deduplicated, st)) ∧
    (∀ last, mostRecent st.logs uid ty = some last →
      cooldown ≤ ts - last.timestamp →
      record st uid ts cam conf ty cooldown =
        (.Recorded ⟨uid, ts, ty, cam, conf⟩,
          ⟨⟨uid, ts, ty, cam, conf⟩ :: st.logs,
            updateSummary st.summaries uid (dateOf ts) ts ty⟩)) ∧
    (mostRecent st.logs uid ty = none →
      record st uid ts cam conf ty cooldown =
        (.Recorded ⟨uid, ts, ty, cam, conf⟩,
          ⟨⟨uid, ts, ty, cam, conf⟩ :: st.logs,
            updateSummary st.summaries uid (dateOf ts) ts ty⟩)) := by
  refine ⟨?_, ?_, ?_⟩
  · intro last hlast hlt
    unfold record
    rw [hlast]
    dsimp only
    rw [if_pos hlt]
  · intro last hlast hge
    unfold record
    rw [hlast]
    dsimp only
    rw [if_neg (not_lt.mpr hge)]
    rfl
  · intro hnone
    unfold record
    rw [hnone]
    rfl

/-- Concrete instance of claim C2: with cooldown 60, an accepted
verification at t = 0 followed by one at t = 5 yields exactly one record
(the second is Deduplicated), while the one at t = 70 yields a second
record. -/
theorem claim2_witness :
    mostRecent (record emptyLedger 7 0 "cam1" 90 "check_in" 60).2.logs 7
        "check_in" = some ⟨7, 0, "check_in", "cam1", 90⟩ ∧
    (5 : Int) - (0 : Int) < 60 ∧
    record (record emptyLedger 7 0 "cam1" 90 "check_in" 60).2 7 5 "cam1" 90
        "check_in" 60 =
      (.Deduplicated, (record emptyLedger 7 0 "cam1" 90 "check_in" 60).2) ∧
    (record emptyLedger 7 0 "cam1" 90 "check_in" 60).2.logs.length = 1 ∧
    (60 : Int) ≤ (70 : Int) - (0 : Int) ∧
    (record (record emptyLedger 7 0 "cam1" 90 "check_in" 60).2 7 70 "cam1"
        90 "check_in" 60).2.logs.length = 2 := by
  refine ⟨by decide, by decide, ?_, by decide, by decide, ?_⟩
  · exact (claim2_dedup_within_cooldown
      (record emptyLedger 7 0 "cam1" 90 "check_in" 60).2 7 5 "cam1" 90
      "check_in" 60).1 ⟨7, 0, "check_in", "cam1", 90⟩ (by decide) (by decide)
  · have h := (claim2_dedup_within_cooldown
      (record emptyLedger 7 0 "cam1" 90 "check_in" 60).2 7 70 "cam1" 90
      "check_in" 60).2.1 ⟨7, 0, "check_in", "cam1", 90⟩ (by decide) (by decide)
    rw [h]
    decide

/-!
## Attendance summaries: uniqueness and derivedness
-/

/-- Arguments of one call to the ledger's record operation. -/
structure LedgerCall where
  uid : Nat
  ts : Int
  cam : String
  conf : Int
  ty : String
  cooldown : Int
deriving DecidableEq

/-- Ledger state reached from the empty ledger by a sequence of record
calls (record is the only operation that writes the ledger; reads are
pure). -/
def runLedger (calls : List LedgerCall) : LedgerState :=
  calls.foldl
    (fun st c => (record st c.uid c.ts c.cam c.conf c.ty c.cooldown).2)
    emptyLedger

/-- At most one summary row per (identity, date): any two distinct rows
differ in identity or in date. -/
def summaryKeysDistinct (st : LedgerState) : Prop :=
  st.summaries.Pairwise fun a b => a.user_id ≠ b.user_id ∨ a.date ≠ b.date

lemma refreshSummary_user_id (s : AttendanceSummary) (ts : Int) (ty : String) :
    (refreshSummary s ts ty).user_id = s.user_id := by
  unfold refreshSummary
  split <;> rfl

lemma refreshSummary_date (s : AttendanceSummary) (ts : Int) (ty : String) :
    (refreshSummary s ts ty).date = s.date := by
  unfold refreshSummary
  split <;> rfl

lemma pairwiseKeys_updateSummary (summaries : List AttendanceSummary)
    (uid : Nat) (d ts : Int) (ty : String)
    (h : summaries.Pairwise fun a b => a.user_id ≠ b.user_id ∨ a.date ≠ b.date) :
    (updateSummary summaries uid d ts ty).Pairwise
      fun a b => a.user_id ≠ b.user_id ∨ a.date ≠ b.date := by
  unfold updateSummary
  split
  case isTrue hany =>
    rw [List.pairwise_map]
    have hgu : ∀ s : AttendanceSummary,
        (if s.user_id == uid && s.date == d then refreshSummary s ts ty
          else s).user_id = s.user_id := by
      intro s
      split
      · exact refreshSummary_user_id s ts ty
      · rfl
    have hgd : ∀ s : AttendanceSummary,
        (if s.user_id == uid && s.date == d then refreshSummary s ts ty
          else s).date = s.date := by
      intro s
      split
      · exact refreshSummary_date s ts ty
      · rfl
    refine h.imp ?_
    intro a b hab
    rw [hgu a, hgu b, hgd a, hgd b]
    exact hab
  case isFalse hany =>
    rw [List.pairwise_cons]
    refine ⟨?_, h⟩
    intro s hs
    simp only [List.any_eq_true, Bool.and_eq_true, beq_iff_eq, not_exists,
      not_and] at hany
    by_cases hu : s.user_id = uid
    · right
      intro hdq
      exact hany s hs hu hdq.symm
    · left
      intro h2
      exact hu h2.symm


lemma pairwiseKeys_record (st : LedgerState) (uid : Nat) (ts : Int)
    (cam : String) (conf : Int) (ty : String) (cooldown : Int)
    (h : summaryKeysDistinct st) :
    summaryKeysDistinct (record st uid ts cam conf ty cooldown).2 := by
  unfold record
  cases hm : mostRecent st.logs uid ty with
  | none =>
    exact pairwiseKeys_updateSummary st.summaries uid (dateOf ts) ts ty h
  | some last =>
    dsimp only
    split
    · exact h
    · exact pairwiseKeys_updateSummary st.summaries uid (dateOf ts) ts ty h

lemma summaryKeysDistinct_runLedger (calls : List LedgerCall) :
    summaryKeysDistinct (runLedger calls) := by
  suffices h : ∀ st : LedgerState, summaryKeysDistinct st →
      summaryKeysDistinct (calls.foldl
        (fun st c => (record st c.uid c.ts c.cam c.conf c.ty c.cooldown).2) st) by
    exact h emptyLedger List.Pairwise.nil
  induction calls with
  | nil => intro st hst; exact hst
  | cons c cs ih =>
    intro st hst
    exact ih _ (pairwiseKeys_record st c.uid c.ts c.cam c.conf c.ty c.cooldown hst)

lemma updateSummary_mem (summaries : List AttendanceSummary) (uid : Nat)
    (d ts : Int) (ty : String) (s : AttendanceSummary)
    (hs : s ∈ updateSummary summaries uid d ts ty) :
    s ∈ summaries ∨ (s.user_id = uid ∧ s.date = d) := by
  unfold updateSummary at hs
  split at hs
  case isTrue hany =>
    rcases List.mem_map.mp hs with ⟨t, ht, hts⟩
    by_cases hc : (t.user_id == uid && t.date == d) = true
    · right
      rw [if_pos hc] at hts
      simp only [Bool.and_eq_true, beq_iff_eq] at hc
      rw [← hts]
      rw [refreshSummary_user_id, refreshSummary_date]
      exact hc
    · left
      rw [if_neg hc] at hts
      rw [← hts]
      exact ht
  case isFalse hany =>
    rcases List.mem_cons.mp hs with hnew | hold
    · right
      rw [hnew]
      exact ⟨rfl, rfl⟩
    · left
      exact hold

/-- Claim C8: every ledger state reachable by record calls has at most one
summary row per (identity, date); and a record call changes the summaries
only by appending a new AttendanceRecord for that identity, touching only
the summary row keyed by that (identity, date). -/
theorem claim8_summary_unique_and_derived (calls : List LedgerCall)
    (st : LedgerState) (uid : Nat) (ts : Int) (cam : String) (conf : Int)
    (ty : String) (cooldown : Int) :
    summaryKeysDistinct (runLedger calls) ∧
    ((record st uid ts cam conf ty cooldown).2.summaries ≠ st.summaries →
      (record st uid ts cam conf ty cooldown).2.logs =
        ⟨uid, ts, ty, cam, conf⟩ :: st.logs) ∧
    (∀ s, s ∈ (record st uid ts cam conf ty cooldown).2.summaries →
      s ∈ st.summaries ∨ (s.user_id = uid ∧ s.date = dateOf ts)) := by
  refine ⟨summaryKeysDistinct_runLedger calls, ?_, ?_⟩
  · intro hne
    unfold record at hne ⊢
    cases hm : mostRecent st.logs uid ty with
    | none => rfl
    | some last =>
      rw [hm] at hne
      dsimp only at hne ⊢
      by_cases hlt : ts - last.timestamp < cooldown
      · rw [if_pos hlt] at hne
        exact absurd rfl hne
      · rw [if_neg hlt]
        rfl
  · intro s hs
    unfold record at hs
    cases hm : mostRecent st.logs uid ty with
    | none =>
      rw [hm] at hs
      exact updateSummary_mem st.summaries uid (dateOf ts) ts ty s hs
    | some last =>
      rw [hm] at hs
      dsimp only at hs
      split at hs
      · exact Or.inl hs
      · exact updateSummary_mem st.summaries uid (dateOf ts) ts ty s hs

/-- Concrete instance of claim C8: a check-in and a check-out for the same
identity on the same day leave a single summary row, and the first append
changes the summaries together with the log. -/
theorem claim8_witness :
    summaryKeysDistinct (runLedger
      [⟨7, 0, "cam1", 90, "check_in", 60⟩,
       ⟨7, 30000, "cam1", 90, "check_out", 60⟩]) ∧
    (record emptyLedger 7 0 "cam1" 90 "check_in" 60).2.summaries ≠
      emptyLedger.summaries ∧
    (record emptyLedger 7 0 "cam1" 90 "check_in" 60).2.logs =
      ⟨7, 0, "check_in", "cam1", 90⟩ :: emptyLedger.logs := by
  refine ⟨(claim8_summary_unique_and_derived
      [⟨7, 0, "cam1", 90, "check_in", 60⟩,
       ⟨7, 30000, "cam1", 90, "check_out", 60⟩]
      emptyLedger 0 0 "" 0 "" 0).1, by decide, ?_⟩
  exact (claim8_summary_unique_and_derived []
    emptyLedger 7 0 "cam1" 90 "check_in" 60).2.1 (by decide)

/-!
## Task Orchestrator

The orchestrator's server-side code is missing from the repository
snapshot; the client (`faceRecognitionAPI` in part_002) submits tasks and
polls their status with plain GET requests.  The state machine is modelled
from the specification, section 4.4.
-/

/-- Kind of an asynchronous task. -/
inductive TaskKind
  | Enrollment
  | Verification
deriving DecidableEq

/-- Lifecycle states of a task. -/
inductive TaskState
  | Queued
  | Processing
  | Completed
  | Failed
  | TimedOut
deriving DecidableEq

/-- In-flight means Queued or Processing, not yet terminal. -/
def TaskState.isInFlight : TaskState → Bool
  | .Queued => true
  | .Processing => true
  | _ => false

/-- Terminal states: Completed, Failed, TimedOut. -/
def TaskState.isTerminal : TaskState → Bool
  | .Completed => true
  | .Failed => true
  | .TimedOut => true
  | _ => false

/-- A task owned by the orchestrator. -/
structure Task where
  id : Nat
  kind : TaskKind
  subjectKey : String
  state : TaskState
  result : Option String
  error : Option String
deriving DecidableEq

/-- Orchestrator state: the task table and the next fresh task id. -/
structure OrchState where
  tasks : List Task
  nextId : Nat
deriving DecidableEq

/-- Initial orchestrator state. -/
def initOrch : OrchState := ⟨[], 0⟩

/-- Result of a task submission. -/
inductive SubmitResult
  | Submitted (taskId : Nat)
  | DuplicateInFlight
deriving DecidableEq

/-- Whether some task with the given subject key is Queued or Processing. -/
def hasInFlight (st : OrchState) (key : String) : Bool :=
  st.tasks.any fun t => t.subjectKey == key && t.state.isInFlight

/-- Modelled from the spec: task submission; the orchestrator's server-side
code is missing from the repository snapshot.  Per the specification: a new
Enrollment or Verification task for a subject key while one is already
Queued or Processing is rejected immediately with DuplicateInFlight rather
than queued; otherwise the task is enqueued as Queued under a fresh id. -/
def submitTask (st : OrchState) (kind : TaskKind) (key : String) :
    SubmitResult × OrchState :=
  if hasInFlight st key then (.DuplicateInFlight, st)
  else
    (.Submitted st.nextId,
      ⟨{ id := st.nextId, kind := kind, subjectKey := key, state := .Queued,
         result := none, error := none } :: st.tasks, st.nextId + 1⟩)

/-- Apply an update function to the task with the given id. -/
def updateTask (st : OrchState) (taskId : Nat) (f : Task → Task) : OrchState :=
  ⟨st.tasks.map fun t => if t.id == taskId then f t else t, st.nextId⟩

/-- Modelled from the spec: a worker claims a Queued task (Queued to
Processing). -/
def claimTask (st : OrchState) (taskId : Nat) : OrchState :=
  updateTask st taskId fun t =>
    if t.state == .Queued then { t with state := .Processing } else t

/-- Modelled from the spec: a worker reports success (Processing to
Completed, result payload retained). -/
def completeTask (st : OrchState) (taskId : Nat) (payload : String) :
    OrchState :=
  updateTask st taskId fun t =>
    if t.state == .Processing then
      { t with state := .Completed, result := some payload }
    else t

/-- Modelled from the spec: a worker reports an unrecoverable error
(Processing to Failed, error detail retained). -/
def failTask (st : OrchState) (taskId : Nat) (err : String) : OrchState :=
  updateTask st taskId fun t =>
    if t.state == .Processing then
      { t with state := .Failed, error := some err }
    else t

/-- Modelled from the spec: the deadline fires (Processing to TimedOut,
client-visible effect identical to Failed with reason Timeout). -/
def timeoutTask (st : OrchState) (taskId : Nat) : OrchState :=
  updateTask st taskId fun t =>
    if t.state == .Processing then
      { t with state := .TimedOut, error := some "Timeout" }
    else t

/-- Operations on the orchestrator.  poll is the read-only status query
issued by `getEnrollmentStatus` / `getVerificationStatus` (plain GET
requests in part_002). -/
inductive OrchOp
  | submit (kind : TaskKind) (key : String)
  | claim (taskId : Nat)
  | complete (taskId : Nat) (payload : String)
  | fail (taskId : Nat) (err : String)
  | timeout (taskId : Nat)
  | poll (taskId : Nat)
deriving DecidableEq

/-- Transition function of the orchestrator. -/
def applyOp (st : OrchState) : OrchOp → OrchState
  | .submit kind key => (submitTask st kind key).2
  | .claim taskId => claimTask st taskId
  | .complete taskId payload => completeTask st taskId payload
  | .fail taskId err => failTask st taskId err
  | .timeout taskId => timeoutTask st taskId
  | .poll _ => st

/-- Orchestrator state reached from the initial state by a sequence of
operations. -/
def runOrch (ops : List OrchOp) : OrchState :=
  ops.foldl applyOp initOrch

/-- Status query `getTaskStatus`: state, result payload and error detail of
the task, read without modifying anything. -/
def getTaskStatus (st : OrchState) (taskId : Nat) :
    Option (TaskState × Option String × Option String) :=
  (st.tasks.find? fun t => t.id == taskId).map fun t =>
    (t.state, t.result, t.error)

/-- At most one in-flight task per subject key. -/
def atMostOneInFlight (st : OrchState) : Prop :=
  st.tasks.Pairwise fun a b =>
    a.state.isInFlight = true → b.state.isInFlight = true →
      a.subjectKey ≠ b.subjectKey

lemma atMostOneInFlight_updateTask (st : OrchState) (tid : Nat)
    (f : Task → Task)
    (hkey : ∀ t, (f t).subjectKey = t.subjectKey)
    (hfl : ∀ t, (f t).state.isInFlight = true → t.state.isInFlight = true)
    (h : atMostOneInFlight st) : atMostOneInFlight (updateTask st tid f) := by
  unfold atMostOneInFlight updateTask
  dsimp only
  rw [List.pairwise_map]
  have gkey : ∀ t : Task,
      (if t.id == tid then f t else t).subjectKey = t.subjectKey := by
    intro t
    split
    · exact hkey t
    · rfl
  have gfl : ∀ t : Task,
      (if t.id == tid then f t else t).state.isInFlight = true →
        t.state.isInFlight = true := by
    intro t
    split
    · exact hfl t
    · exact id
  refine h.imp ?_
  intro a b hab h1 h2
  rw [gkey a, gkey b]
  exact hab (gfl a h1) (gfl b h2)

lemma atMostOneInFlight_submit (st : OrchState) (kind : TaskKind)
    (key : String) (h : atMostOneInFlight st) :
    atMostOneInFlight (submitTask st kind key).2 := by
  unfold submitTask
  split
  case isTrue hfl => exact h
  case isFalse hfl =>
    dsimp only
    unfold atMostOneInFlight
    dsimp only
    rw [List.pairwise_cons]
    refine ⟨?_, h⟩
    intro b hb _ hbfl
    unfold hasInFlight at hfl
    simp only [List.any_eq_true, Bool.and_eq_true, beq_iff_eq, not_exists,
      not_and] at hfl
    intro heq
    exact hfl b hb heq.symm hbfl

lemma atMostOneInFlight_applyOp (st : OrchState) (op : OrchOp)
    (h : atMostOneInFlight st) : atMostOneInFlight (applyOp st op) := by
  cases op with
  | submit kind key => exact atMostOneInFlight_submit st kind key h
  | claim taskId =>
    refine atMostOneInFlight_updateTask st taskId _ ?_ ?_ h
    · intro t
      split <;> rfl
    · intro t
      split
      case isTrue hq =>
        intro _
        rw [show t.state = TaskState.Queued from by simpa using hq]
        rfl
      case isFalse hq => exact id
  | complete taskId payload =>
    refine atMostOneInFlight_updateTask st taskId _ ?_ ?_ h
    · intro t
      split <;> rfl
    · intro t
      split
      case isTrue hq =>
        intro hcontra
        exact absurd hcontra (by simp [TaskState.isInFlight])
      case isFalse hq => exact id
  | fail taskId err =>
    refine atMostOneInFlight_updateTask st taskId _ ?_ ?_ h
    · intro t
      split <;> rfl
    · intro t
      split
      case isTrue hq =>
        intro hcontra
        exact absurd hcontra (by simp [TaskState.isInFlight])
      case isFalse hq => exact id
  | timeout taskId =>
    refine atMostOneInFlight_updateTask st taskId _ ?_ ?_ h
    · intro t
      split <;> rfl
    · intro t
      split
      case isTrue hq =>
        intro hcontra
        exact absurd hcontra (by simp [TaskState.isInFlight])
      case isFalse hq => exact id
  | poll taskId => exact h

lemma atMostOneInFlight_runOrch (ops : List OrchOp) :
    atMostOneInFlight (runOrch ops) := by
  suffices hgen : ∀ st : OrchState, atMostOneInFlight st →
      atMostOneInFlight (ops.foldl applyOp st) from
    hgen initOrch List.Pairwise.nil
  induction ops with
  | nil => exact fun st hst => hst
  | cons op rest ih =>
    intro st hst
    exact ih (applyOp st op) (atMostOneInFlight_applyOp st op hst)

/-- Claim C3: a new task for a subject key that already has an in-flight
(Queued or Processing) task is rejected immediately with DuplicateInFlight
and not queued; consequently every reachable orchestrator state has at
most one in-flight task per subject key. -/
theorem claim3_duplicate_in_flight (ops : List OrchOp) (st : OrchState)
    (kind : TaskKind) (key : String)
    (hdup : hasInFlight st key = true) :
    submitTask st kind key = (.DuplicateInFlight, st) ∧
    atMostOneInFlight (runOrch ops) := by
  constructor
  · unfold submitTask
    rw [if_pos hdup]
  · exact atMostOneInFlight_runOrch ops

/-- Concrete instance of claim C3: a second Verification submission for
camera key cam1 while the first task is Processing is rejected. -/
theorem claim3_witness :
    hasInFlight (runOrch [.submit .Verification "cam1", .claim 0]) "cam1" =
      true ∧
    (submitTask (runOrch [.submit .Verification "cam1", .claim 0])
        .Verification "cam1" =
      (.DuplicateInFlight, runOrch [.submit .Verification "cam1", .claim 0]) ∧
      atMostOneInFlight (runOrch [.submit .Verification "cam1", .claim 0])) :=
  ⟨by decide,
    claim3_duplicate_in_flight [.submit .Verification "cam1", .claim 0]
      (runOrch [.submit .Verification "cam1", .claim 0]) .Verification "cam1"
      (by decide)⟩

/-- Well-formedness of the orchestrator state: task ids are pairwise
distinct and below the next fresh id. -/
def orchWF (st : OrchState) : Prop :=
  (st.tasks.Pairwise fun a b => a.id ≠ b.id) ∧
  ∀ t ∈ st.tasks, t.id < st.nextId

lemma orchWF_updateTask (st : OrchState) (tid : Nat) (f : Task → Task)
    (hid : ∀ t, (f t).id = t.id) (h : orchWF st) :
    orchWF (updateTask st tid f) := by
  obtain ⟨hdist, hbound⟩ := h
  have gid : ∀ t : Task, (if t.id == tid then f t else t).id = t.id := by
    intro t
    split
    · exact hid t
    · rfl
  constructor
  · rw [updateTask]
    dsimp only
    rw [List.pairwise_map]
    refine hdist.imp ?_
    intro a b hab
    rw [gid a, gid b]
    exact hab
  · intro t ht
    rcases List.mem_map.mp ht with ⟨s, hs, hst⟩
    rw [← hst, gid s]
    exact hbound s hs

lemma orchWF_applyOp (st : OrchState) (op : OrchOp) (h : orchWF st) :
    orchWF (applyOp st op) := by
  cases op with
  | submit kind key =>
    show orchWF (submitTask st kind key).2
    unfold submitTask
    split
    · exact h
    · obtain ⟨hdist, hbound⟩ := h
      constructor
      · dsimp only
        rw [List.pairwise_cons]
        refine ⟨?_, hdist⟩
        intro b hb
        exact Nat.ne_of_gt (hbound b hb)
      · intro t ht
        rcases List.mem_cons.mp ht with rfl | hmem
        · exact Nat.lt_succ_self st.nextId
        · exact Nat.lt_succ_of_lt (hbound t hmem)
  | claim taskId =>
    refine orchWF_updateTask st taskId _ ?_ h
    intro t
    split <;> rfl
  | complete taskId payload =>
    refine orchWF_updateTask st taskId _ ?_ h
    intro t
    split <;> rfl
  | fail taskId err =>
    refine orchWF_updateTask st taskId _ ?_ h
    intro t
    split <;> rfl
  | timeout taskId =>
    refine orchWF_updateTask st taskId _ ?_ h
    intro t
    split <;> rfl
  | poll taskId => exact h

lemma terminal_not_in_flight_eq (t : Task) (hterm : t.state.isTerminal = true) :
    (t.state == TaskState.Queued) = false ∧
    (t.state == TaskState.Processing) = false := by
  cases h : t.state with
  | Queued => rw [h] at hterm; exact absurd hterm (by decide)
  | Processing => rw [h] at hterm; exact absurd hterm (by decide)
  | Completed => exact ⟨rfl, rfl⟩
  | Failed => exact ⟨rfl, rfl⟩
  | TimedOut => exact ⟨rfl, rfl⟩

lemma terminal_mem_applyOp (st : OrchState) (op : OrchOp) (t : Task)
    (ht : t ∈ st.tasks) (hterm : t.state.isTerminal = true) :
    t ∈ (applyOp st op).tasks := by
  cases op with
  | submit kind key =>
    show t ∈ (submitTask st kind key).2.tasks
    unfold submitTask
    split
    · exact ht
    · exact List.mem_cons_of_mem _ ht
  | claim taskId =>
    refine List.mem_map.mpr ⟨t, ht, ?_⟩
    have hq := (terminal_not_in_flight_eq t hterm).1
    simp [hq]
  | complete taskId payload =>
    refine List.mem_map.mpr ⟨t, ht, ?_⟩
    have hp := (terminal_not_in_flight_eq t hterm).2
    simp [hp]
  | fail taskId err =>
    refine List.mem_map.mpr ⟨t, ht, ?_⟩
    have hp := (terminal_not_in_flight_eq t hterm).2
    simp [hp]
  | timeout taskId =>
    refine List.mem_map.mpr ⟨t, ht, ?_⟩
    have hp := (terminal_not_in_flight_eq t hterm).2
    simp [hp]
  | poll taskId => exact ht

lemma find_task_of_mem_distinct (l : List Task) (t : Task)
    (hd : l.Pairwise fun a b => a.id ≠ b.id) (ht : t ∈ l) :
    l.find? (fun s => s.id == t.id) = some t := by
  induction l with
  | nil => cases ht
  | cons hd_t rest ih =>
    rcases List.mem_cons.mp ht with rfl | hmem
    · rw [List.find?_cons_of_pos _ (by simp)]
    · have hne : hd_t.id ≠ t.id := (List.pairwise_cons.mp hd).1 t hmem
      rw [List.find?_cons_of_neg _ (by simp [hne])]
      exact ih (List.pairwise_cons.mp hd).2 hmem

lemma getTaskStatus_of_mem (st : OrchState) (t : Task) (hwf : orchWF st)
    (ht : t ∈ st.tasks) :
    getTaskStatus st t.id = some (t.state, t.result, t.error) := by
  unfold getTaskStatus
  rw [find_task_of_mem_distinct st.tasks t hwf.1 ht]
  rfl

lemma getTaskStatus_stable (l : List OrchOp) (st : OrchState) (t : Task)
    (hwf : orchWF st) (ht : t ∈ st.tasks)
    (hterm : t.state.isTerminal = true) :
    getTaskStatus (l.foldl applyOp st) t.id =
      some (t.state, t.result, t.error) := by
  induction l generalizing st with
  | nil => exact getTaskStatus_of_mem st t hwf ht
  | cons op rest ih =>
    exact ih (applyOp st op) (orchWF_applyOp st op hwf)
      (terminal_mem_applyOp st op t ht hterm)

lemma orchWF_runOrch (ops : List OrchOp) : orchWF (runOrch ops) := by
  suffices hgen : ∀ st : OrchState, orchWF st →
      orchWF (ops.foldl applyOp st) from
    hgen initOrch ⟨List.Pairwise.nil, fun t ht => absurd ht (List.not_mem_nil t)⟩
  induction ops with
  | nil => exact fun st hst => hst
  | cons op rest ih =>
    intro st hst
    exact ih (applyOp st op) (orchWF_applyOp st op hst)

/-- Status poll repeated n times: the sequence of returned statuses and the
final state, each poll applied as an orchestrator operation. -/
def pollStatusN (st : OrchState) (taskId : Nat) :
    Nat → List (Option (TaskState × Option String × Option String)) × OrchState
  | 0 => ([], st)
  | n + 1 =>
    let p := pollStatusN (applyOp st (.poll taskId)) taskId n
    (getTaskStatus st taskId :: p.1, p.2)

lemma pollStatusN_replicate (st : OrchState) (taskId : Nat) (n : Nat) :
    pollStatusN st taskId n =
      (List.replicate n (getTaskStatus st taskId), st) := by
  induction n with
  | zero => rfl
  | succ m ih =>
    unfold pollStatusN
    rw [show applyOp st (.poll taskId) = st from rfl, ih]
    rfl

/-- Claim C4: once a task has reached a terminal state, its state, result
payload and error detail never change under any further operations; status
reads cause no state change, and polling the status N times returns N
identical results. -/
theorem claim4_terminal_immutable_idempotent (ops0 l : List OrchOp)
    (t : Task) (n tid : Nat)
    (ht : t ∈ (runOrch ops0).tasks) (hterm : t.state.isTerminal = true) :
    getTaskStatus (runOrch ops0) t.id = some (t.state, t.result, t.error) ∧
    getTaskStatus (l.foldl applyOp (runOrch ops0)) t.id =
      some (t.state, t.result, t.error) ∧
    applyOp (runOrch ops0) (.poll tid) = runOrch ops0 ∧
    (pollStatusN (runOrch ops0) tid n).1 =
      List.replicate n (getTaskStatus (runOrch ops0) tid) ∧
    (pollStatusN (runOrch ops0) tid n).2 = runOrch ops0 := by
  refine ⟨getTaskStatus_of_mem _ t (orchWF_runOrch ops0) ht,
    getTaskStatus_stable l (runOrch ops0) t (orchWF_runOrch ops0) ht hterm,
    rfl, ?_, ?_⟩
  · rw [pollStatusN_replicate]
  · rw [pollStatusN_replicate]

/-- Concrete instance of claim C4: a completed enrollment task keeps its
status under later operations and three polls return three identical
results. -/
theorem claim4_witness :
    (⟨0, .Enrollment, "E1", .Completed, some "ok", none⟩ : Task) ∈
      (runOrch [.submit .Enrollment "E1", .claim 0, .complete 0 "ok"]).tasks ∧
    TaskState.Completed.isTerminal = true ∧
    (getTaskStatus
        (runOrch [.submit .Enrollment "E1", .claim 0, .complete 0 "ok"]) 0 =
      some (.Completed, some "ok", none) ∧
    getTaskStatus
        ([OrchOp.submit .Verification "cam1", OrchOp.fail 0 "x"].foldl applyOp
          (runOrch [.submit .Enrollment "E1", .claim 0, .complete 0 "ok"])) 0 =
      some (.Completed, some "ok", none) ∧
    (pollStatusN
        (runOrch [.submit .Enrollment "E1", .claim 0, .complete 0 "ok"]) 0
        3).1 =
      List.replicate 3 (getTaskStatus
        (runOrch [.submit .Enrollment "E1", .claim 0, .complete 0 "ok"]) 0)) := by
  have h := claim4_terminal_immutable_idempotent
    [.submit .Enrollment "E1", .claim 0, .complete 0 "ok"]
    [.submit .Verification "cam1", .fail 0 "x"]
    ⟨0, .Enrollment, "E1", .Completed, some "ok", none⟩ 3 0
    (by decide) (by decide)
  exact ⟨by decide, by decide, h.1, h.2.1, h.2.2.2.1⟩

/-!
## Exhaustive scan versus approximate index path

The repository configures an ivfflat (inverted-file) index over the
embedding column (`face_embeddings_embedding_idx`, lists = 100); the
query function `find_similar_faces` is the exhaustive-scan contract.  The
approximate path scans only the rows whose assigned inverted list is
probed; the crossover switch is modelled from the specification.
-/

/-- Modelled from the spec: the approximate (inverted-file) query path; the
index internals are not part of the repository snapshot.  Each row is
assigned to an inverted list by `assign`; the query scans only rows whose
list is among the probed lists, then applies the same
filter-sort-limit pipeline as the exhaustive scan. -/
def ivfflat_find_similar_faces {α β : Type} [LinearOrder β]
    (assign : α → Nat) (probes : List Nat) (sim : α → α → β)
    (query_embedding : α) (similarity_threshold : β) (max_results : Nat)
    (table : List (FaceEmbeddingRow α)) : List (SimilarFace β) :=
  find_similar_faces sim query_embedding similarity_threshold max_results
    (table.filter fun fe => probes.contains (assign fe.embedding))

/-- Modelled from the spec: the store uses the exhaustive scan up to the
configured crossover cardinality and the approximate index beyond it. -/
def store_query {α β : Type} [LinearOrder β] (crossover : Nat)
    (assign : α → Nat) (probes : List Nat) (sim : α → α → β)
    (query_embedding : α) (similarity_threshold : β) (max_results : Nat)
    (table : List (FaceEmbeddingRow α)) : List (SimilarFace β) :=
  if table.length ≤ crossover then
    find_similar_faces sim query_embedding similarity_threshold max_results
      table
  else
    ivfflat_find_similar_faces assign probes sim query_embedding
      similarity_threshold max_results table

/-- Claim C7: at or below the crossover cardinality the store query is the
exhaustive scan, and whenever the probed lists cover every stored row the
approximate path returns the identical ranking, in particular the same
top-1 identity. -/
theorem claim7_exhaustive_approx_equivalent {α β : Type} [LinearOrder β]
    (crossover : Nat) (assign : α → Nat) (probes : List Nat)
    (sim : α → α → β) (query_embedding : α) (similarity_threshold : β)
    (max_results : Nat) (table : List (FaceEmbeddingRow α))
    (hsmall : table.length ≤ crossover)
    (hcover : ∀ fe ∈ table, probes.contains (assign fe.embedding) = true) :
    store_query crossover assign probes sim query_embedding
        similarity_threshold max_results table =
      find_similar_faces sim query_embedding similarity_threshold
        max_results table ∧
    ivfflat_find_similar_faces assign probes sim query_embedding
        similarity_threshold max_results table =
      find_similar_faces sim query_embedding similarity_threshold
        max_results table ∧
    ((store_query crossover assign probes sim query_embedding
          similarity_threshold max_results table).head?.map
        SimilarFace.user_id =
      (find_similar_faces sim query_embedding similarity_threshold
          max_results table).head?.map SimilarFace.user_id) := by
  have hfilter : table.filter
      (fun fe => probes.contains (assign fe.embedding)) = table := by
    induction table with
    | nil => rfl
    | cons fe rest ih =>
      rw [List.filter_cons]
      rw [if_pos (hcover fe (List.mem_cons_self fe rest))]
      rw [ih (by simpa using Nat.le_of_succ_le hsmall)
        (fun x hx => hcover x (List.mem_cons_of_mem fe hx))]
  have happrox : ivfflat_find_similar_faces assign probes sim
      query_embedding similarity_threshold max_results table =
      find_similar_faces sim query_embedding similarity_threshold
        max_results table := by
    unfold ivfflat_find_similar_faces
    rw [hfilter]
  have hstore : store_query crossover assign probes sim query_embedding
      similarity_threshold max_results table =
      find_similar_faces sim query_embedding similarity_threshold
        max_results table := by
    unfold store_query
    rw [if_pos hsmall]
  exact ⟨hstore, happrox, by rw [hstore]⟩

/-- Concrete instance of claim C7 on a two-row table below the crossover. -/
theorem claim7_witness :
    ([⟨1, 10, 90⟩, ⟨2, 20, 70⟩] : List (FaceEmbeddingRow ℤ)).length ≤ 100 ∧
    (∀ fe ∈ ([⟨1, 10, 90⟩, ⟨2, 20, 70⟩] : List (FaceEmbeddingRow ℤ)),
      [0, 1].contains (fe.embedding % 2).toNat = true) ∧
    store_query 100 (fun e => (e % 2).toNat) [0, 1] (fun a b => a * b)
        (1 : ℤ) 60 2 [⟨1, 10, 90⟩, ⟨2, 20, 70⟩] =
      find_similar_faces (fun a b => a * b) (1 : ℤ) 60 2
        [⟨1, 10, 90⟩, ⟨2, 20, 70⟩] := by
  refine ⟨by decide, by decide, ?_⟩
  exact (claim7_exhaustive_approx_equivalent 100 (fun e => (e % 2).toNat)
    [0, 1] (fun a b => a * b) (1 : ℤ) 60 2 [⟨1, 10, 90⟩, ⟨2, 20, 70⟩]
    (by decide) (by decide)).1

/-!
## Admin dashboard: enrollment guard (FaceRecognition.tsx)

`handleEnrollment` issues the enrollFace request only when exactly 3
captured images and a non-empty employee id are present; the submit button
is disabled by `selectedImages.length !== 3 || !employeeId ||
enrollMutation.isPending`.
-/

/-- Payload of the enrollFace request (faceRecognitionAPI.enrollFace). -/
structure EnrollRequest where
  employee_id : String
  images : List String
  quality_check : Bool
deriving DecidableEq

/-- Handler `handleEnrollment`: issues the request only when
`selectedImages.length === 3 && employeeId` (a non-empty string is truthy);
otherwise it does nothing. -/
def handleEnrollment (selectedImages : List String) (employeeId : String) :
    Option EnrollRequest :=
  if selectedImages.length = 3 ∧ employeeId ≠ "" then
    some { employee_id := employeeId, images := selectedImages,
           quality_check := true }
  else none

/-- Disabled condition of the Enroll Face button:
`selectedImages.length !== 3 || !employeeId || enrollMutation.isPending`. -/
def enrollButtonDisabled (selectedImages : List String) (employeeId : String)
    (isPending : Bool) : Bool :=
  (selectedImages.length != 3) || (employeeId == "") || isPending

/-- Claim C9: the enrollFace request is issued only with exactly 3 images
and a non-empty employee id; handleEnrollment is a no-op for any other
image count; and the submit button is enabled only when the image count is
exactly 3 and the employee id is non-empty. -/
theorem claim9_enrollment_guard (selectedImages : List String)
    (employeeId : String) (isPending : Bool) :
    (∀ req, handleEnrollment selectedImages employeeId = some req →
      selectedImages.length = 3 ∧ employeeId ≠ "" ∧
      req = { employee_id := employeeId, images := selectedImages,
              quality_check := true }) ∧
    (selectedImages.length ≠ 3 →
      handleEnrollment selectedImages employeeId = none) ∧
    (enrollButtonDisabled selectedImages employeeId isPending = false →
      selectedImages.length = 3 ∧ employeeId ≠ "") := by
  refine ⟨?_, ?_, ?_⟩
  · intro req hreq
    unfold handleEnrollment at hreq
    split at hreq
    case isTrue hcond =>
      exact ⟨hcond.1, hcond.2, (Option.some_inj.mp hreq).symm⟩
    case isFalse hcond => exact absurd hreq (Option.some_ne_none req).symm
  · intro hne
    unfold handleEnrollment
    rw [if_neg (fun hcond => hne hcond.1)]
  · intro hdis
    unfold enrollButtonDisabled at hdis
    simp only [Bool.or_eq_false_iff, bne_eq_false_iff_eq, beq_eq_false_iff_ne]
      at hdis
    exact ⟨hdis.1.1, hdis.1.2⟩

/-- Concrete instance of claim C9: two images do not issue a request, and
an enabled button implies three images and a non-empty employee id. -/
theorem claim9_witness :
    (["a", "b"] : List String).length ≠ 3 ∧
    handleEnrollment ["a", "b"] "EMP1" = none ∧
    (enrollButtonDisabled ["a", "b", "c"] "EMP1" false = false ∧
      (["a", "b", "c"] : List String).length = 3 ∧ ("EMP1" : String) ≠ "") := by
  refine ⟨by decide, (claim9_enrollment_guard ["a", "b"] "EMP1" false).2.1
    (by decide), by decide, ?_⟩
  exact (claim9_enrollment_guard ["a", "b", "c"] "EMP1" false).2.2 (by decide)

/-!
## Admin dashboard: notifications reducer (notificationsSlice.ts)
-/

/-- Notification item (fields the reducer touches). -/
structure Notification where
  id : Nat
  title : String
  message : String
  is_read : Bool
deriving DecidableEq

/-- Redux notifications slice state. -/
structure NotificationsState where
  notifications : List Notification
  unreadCount : Int
  loading : Bool
  error : Option String
deriving DecidableEq

/-- Initial notifications state. -/
def initialNotificationsState : NotificationsState :=
  { notifications := [], unreadCount := 0, loading := false, error := none }

/-- Mark the first notification with the given id as read (the reducer uses
`find` and mutates the found notification). -/
def markFirstRead : List Notification → Nat → List Notification
  | [], _ => []
  | n :: ns, nid =>
    if n.id == nid then { n with is_read := true } :: ns
    else n :: markFirstRead ns nid

/-- Reducer actions settled here: markNotificationRead.fulfilled and
markAllNotificationsRead.fulfilled. -/
inductive NotifAction
  | markRead (id : Nat)
  | markAllRead
deriving DecidableEq

/-- The notifications reducer: markRead sets the found notification read
and clamps the decremented unread count at zero
(`Math.max(0, state.unreadCount - 1)`); markAllRead sets every notification
read and the unread count to zero. -/
def notificationsReducer (st : NotificationsState) :
    NotifAction → NotificationsState
  | .markRead nid =>
    { st with
      notifications := markFirstRead st.notifications nid
      unreadCount := max 0 (st.unreadCount - 1) }
  | .markAllRead =>
    { st with
      notifications := st.notifications.map fun n => { n with is_read := true }
      unreadCount := 0 }

/-- Claim C10: from the initial state, the unread count never becomes
negative under any sequence of markRead / markAllRead actions; a single
read decrements with a clamp at zero and mark-all sets exactly zero. -/
theorem claim10_unread_count_nonneg (actions : List NotifAction)
    (st : NotificationsState) (nid : Nat) :
    0 ≤ (actions.foldl notificationsReducer
      initialNotificationsState).unreadCount ∧
    (notificationsReducer st (.markRead nid)).unreadCount =
      max 0 (st.unreadCount - 1) ∧
    (notificationsReducer st .markAllRead).unreadCount = 0 := by
  refine ⟨?_, rfl, rfl⟩
  suffices hgen : ∀ s : NotificationsState, 0 ≤ s.unreadCount →
      0 ≤ (actions.foldl notificationsReducer s).unreadCount from
    hgen initialNotificationsState le_rfl
  induction actions with
  | nil => exact fun s hs => hs
  | cons a rest ih =>
    intro s hs
    refine ih (notificationsReducer s a) ?_
    cases a with
    | markRead nid2 => exact le_max_left 0 _
    | markAllRead => exact le_rfl

end TruePresence
